import Mathlib

/-!
Shallow embedding of the waste-diversion tracker (`src/app.py`).

Conventions of the embedding:
* `float` quantities are modelled as `ℚ` (all arithmetic in the program is
  exact on the inputs the claims mention);
* a pandas `NaN` cell is modelled as `none : Option ℚ` — for the per-record
  diversion rate the only source of `NaN` under the record invariant
  (non-negative quantities) is a `0/0` division;
* the calendar date of a record is an opaque day number `ℕ`;
* the CSV backing file is modelled at two levels: a parsed level
  (`List WasteRecord`, used for the record-store append semantics) and a raw
  tokenized level (`CsvFile`, used for the `pd.read_csv` behaviour on
  malformed files).
-/

namespace EcoTrack

/-- A row of the waste log: date plus the three quantity columns
(`Recycling`, `Compost`, `Landfill` in `app.py`). -/
structure WasteRecord where
  date : ℕ
  recycling : ℚ
  compost : ℚ
  landfill : ℚ
  deriving DecidableEq, Repr

/-- The aggregate metrics computed on the Executive Dashboard page
(`app.py` lines 81–89). -/
structure AggregateMetrics where
  total_recycling : ℚ
  total_compost : ℚ
  total_landfill : ℚ
  grand_total : ℚ
  diversion_rate : ℚ
  deriving DecidableEq, Repr

/-- Column sum `total_recycling = df['Recycling'].sum()` (`app.py` line 81). -/
def sumRecycling (records : List WasteRecord) : ℚ :=
  (records.map (fun r => r.recycling)).sum

/-- Column sum `total_compost = df['Compost'].sum()` (`app.py` line 82). -/
def sumCompost (records : List WasteRecord) : ℚ :=
  (records.map (fun r => r.compost)).sum

/-- Column sum `total_landfill = df['Landfill'].sum()` (`app.py` line 83). -/
def sumLandfill (records : List WasteRecord) : ℚ :=
  (records.map (fun r => r.landfill)).sum

/-- Dashboard metrics, `app.py` lines 81–89: column sums, grand total, and the diversion rate
`((total_recycling + total_compost) / grand_total) * 100` guarded by
`if grand_total > 0` (else `0`). -/
def aggregate (records : List WasteRecord) : AggregateMetrics :=
  { total_recycling := sumRecycling records
    total_compost := sumCompost records
    total_landfill := sumLandfill records
    grand_total := sumRecycling records + sumCompost records + sumLandfill records
    diversion_rate :=
      if 0 < sumRecycling records + sumCompost records + sumLandfill records then
        (sumRecycling records + sumCompost records) /
          (sumRecycling records + sumCompost records + sumLandfill records) * 100
      else 0 }

/-- The two-record example of the spec: `[(10,5,20),(0,0,0)]`. -/
def exRecords : List WasteRecord :=
  [⟨0, 10, 5, 20⟩, ⟨1, 0, 0, 0⟩]

/-- C1: `aggregate` returns the three column sums, their grand total, and the
zero-guarded diversion rate `100 · (tr + tc) / g`; on
`[(10,5,20),(0,0,0)]` it yields totals `(10,5,20)`, grand total `35` and
rate `300/7 ≈ 42.857`; on the empty record set it yields grand total `0` and
rate `0` with no division fault. -/
theorem aggregate_correct (rs : List WasteRecord) :
    (aggregate rs).total_recycling = (rs.map (fun r => r.recycling)).sum ∧
    (aggregate rs).total_compost = (rs.map (fun r => r.compost)).sum ∧
    (aggregate rs).total_landfill = (rs.map (fun r => r.landfill)).sum ∧
    (aggregate rs).grand_total =
      (aggregate rs).total_recycling + (aggregate rs).total_compost +
        (aggregate rs).total_landfill ∧
    (0 < (aggregate rs).grand_total →
      (aggregate rs).diversion_rate * (aggregate rs).grand_total =
        100 * ((aggregate rs).total_recycling + (aggregate rs).total_compost)) ∧
    ((aggregate rs).grand_total = 0 → (aggregate rs).diversion_rate = 0) ∧
    aggregate exRecords = ⟨10, 5, 20, 35, 300 / 7⟩ ∧
    aggregate [] = ⟨0, 0, 0, 0, 0⟩ := by
  refine ⟨rfl, rfl, rfl, rfl, ?_, ?_,
    by norm_num [aggregate, exRecords, sumRecycling, sumCompost, sumLandfill],
    by norm_num [aggregate, sumRecycling, sumCompost, sumLandfill]⟩
  · intro hg
    simp only [aggregate] at hg ⊢
    rw [if_pos hg]
    field_simp
    ring
  · intro hg
    simp only [aggregate] at hg ⊢
    rw [hg]
    simp

/-- C1 witness: on the concrete two-record set the grand total is positive and
the rate satisfies the division equation `rate · 35 = 100 · 15`. -/
theorem aggregate_correct_witness :
    0 < (aggregate exRecords).grand_total ∧
    (aggregate exRecords).diversion_rate * (aggregate exRecords).grand_total =
      100 * ((aggregate exRecords).total_recycling +
        (aggregate exRecords).total_compost) :=
  ⟨by norm_num [aggregate, exRecords, sumRecycling, sumCompost, sumLandfill],
    (aggregate_correct exRecords).2.2.2.2.1
      (by norm_num [aggregate, exRecords, sumRecycling, sumCompost, sumLandfill])⟩

/-- Cumulative diverted mass `total_saved = df['Recycling'].sum() + df['Compost'].sum()`
(`app.py` line 164). -/
def total_diverted (records : List WasteRecord) : ℚ :=
  sumRecycling records + sumCompost records

/-- Rank `level = int(total_saved // 100) + 1` (`app.py` line 165); Python float
floor-division followed by `int` of an already-floored value is the floor. -/
def level (records : List WasteRecord) : ℤ :=
  ⌊total_diverted records / 100⌋ + 1

/-- Progress `(total_saved % 100) / 100` (`app.py` line 174); Python float `%` with a
positive modulus is `x - 100 * floor(x / 100)`. -/
def progress_fraction (records : List WasteRecord) : ℚ :=
  (total_diverted records - 100 * ⌊total_diverted records / 100⌋) / 100

/-- A record set with 250 kg diverted in total. -/
def ex250 : List WasteRecord := [⟨0, 150, 100, 0⟩]

/-- C6: with non-negative quantities (the `WasteRecord` invariant),
`level = ⌊total_diverted / 100⌋ + 1 ≥ 1` and
`progress_fraction = (total_diverted mod 100) / 100 ∈ [0, 1)`; at
`total_diverted = 250` the pair is `(3, 1/2)` and at `0` it is `(1, 0)`. -/
theorem level_and_progress_spec (rs : List WasteRecord)
    (hnn : ∀ r ∈ rs, 0 ≤ r.recycling ∧ 0 ≤ r.compost) :
    level rs = ⌊total_diverted rs / 100⌋ + 1 ∧
    1 ≤ level rs ∧
    0 ≤ progress_fraction rs ∧
    progress_fraction rs < 1 ∧
    (total_diverted rs = 250 → level rs = 3 ∧ progress_fraction rs = 1 / 2) ∧
    (total_diverted rs = 0 → level rs = 1 ∧ progress_fraction rs = 0) := by
  have ht : 0 ≤ total_diverted rs := by
    have h1 : 0 ≤ (rs.map (fun r => r.recycling)).sum :=
      List.sum_nonneg (fun x hx => by
        obtain ⟨r, hr, rfl⟩ := List.mem_map.mp hx
        exact (hnn r hr).1)
    have h2 : 0 ≤ (rs.map (fun r => r.compost)).sum :=
      List.sum_nonneg (fun x hx => by
        obtain ⟨r, hr, rfl⟩ := List.mem_map.mp hx
        exact (hnn r hr).2)
    unfold total_diverted sumRecycling sumCompost
    linarith
  have hfl : (⌊total_diverted rs / 100⌋ : ℚ) ≤ total_diverted rs / 100 :=
    Int.floor_le _
  have hfu : total_diverted rs / 100 < ⌊total_diverted rs / 100⌋ + 1 :=
    Int.lt_floor_add_one _
  have hsplit : progress_fraction rs =
      total_diverted rs / 100 - ⌊total_diverted rs / 100⌋ := by
    unfold progress_fraction
    ring
  refine ⟨rfl, ?_, ?_, ?_, ?_, ?_⟩
  · have h0 : (0 : ℤ) ≤ ⌊total_diverted rs / 100⌋ :=
      Int.floor_nonneg.mpr (by positivity)
    unfold level
    omega
  · rw [hsplit]; linarith
  · rw [hsplit]; linarith
  · intro h
    constructor
    · unfold level; rw [h]; norm_num
    · unfold progress_fraction; rw [h]; norm_num
  · intro h
    constructor
    · unfold level; rw [h]; norm_num
    · unfold progress_fraction; rw [h]; norm_num

/-- C6 witness: on the concrete 250 kg record set the invariant holds and the
level/progress pair is `(3, 1/2)`. -/
theorem level_and_progress_witness :
    (∀ r ∈ ex250, 0 ≤ r.recycling ∧ 0 ≤ r.compost) ∧
    level ex250 = 3 ∧ progress_fraction ex250 = 1 / 2 := by
  have hinv : ∀ r ∈ ex250, 0 ≤ r.recycling ∧ 0 ≤ r.compost := by
    intro r hr
    simp only [ex250, List.mem_singleton] at hr
    subst hr
    norm_num
  have h250 : total_diverted ex250 = 250 := by
    norm_num [total_diverted, sumRecycling, sumCompost, ex250]
  have h := (level_and_progress_spec ex250 hinv).2.2.2.2.1 h250
  exact ⟨hinv, h.1, h.2⟩

/-- The backing CSV file at the parsed level: the ordered rows it holds. -/
structure Store where
  records : List WasteRecord
  deriving DecidableEq, Repr

/-- Reading, at the parsed level: `load_data` on an existing backing file (`app.py` line 33) returns the
file's rows. -/
def loadRecords (s : Store) : List WasteRecord := s.records

/-- Append: `save_entry` (`app.py` lines 35–45): read the current frame, concatenate a
one-row frame `(today, recycling, compost, landfill)` (`ignore_index=True`
keeps insertion order), write the whole frame back, and return it. The result
pair is (backing file after the write, the returned frame). -/
def save_entry (s : Store) (today : ℕ) (recycling compost landfill : ℚ) :
    Store × List WasteRecord :=
  let df := s.records ++ [⟨today, recycling, compost, landfill⟩]
  (⟨df⟩, df)

/-- C4: `save_entry` returns a set one longer than the prior set, whose first
`N` records are the prior set in order and whose last record is
`(today, r, c, l)`; loading the persisted state returns that same set. -/
theorem save_entry_appends (s : Store) (today : ℕ) (r c l : ℚ) :
    (save_entry s today r c l).2.length = s.records.length + 1 ∧
    (save_entry s today r c l).2.take s.records.length = s.records ∧
    (save_entry s today r c l).2.getLast? = some ⟨today, r, c, l⟩ ∧
    loadRecords (save_entry s today r c l).1 = (save_entry s today r c l).2 := by
  refine ⟨by simp [save_entry], ?_, ?_, rfl⟩
  · simp [save_entry, List.take_left]
  · simp [save_entry]

/-- C8 counterexample: `save_entry` with a negative recycling quantity extends
the backing storage with the invalid record — there is no non-negativity
check and no rejection anywhere in `save_entry` (`app.py` lines 35–45). -/
theorem save_entry_negative_counterexample :
    (save_entry ⟨[]⟩ 0 (-1) 2 3).1.records = [⟨0, -1, 2, 3⟩] := rfl

/-- C8 amended: `save_entry` performs no validation at all; a call with a
negative quantity appends and persists the record exactly like any other
(non-negativity is enforced only by the presentation layer's
`st.number_input(..., 0.0, 1000.0, ...)` widget bounds). -/
theorem save_entry_accepts_negative (s : Store) (today : ℕ) (r c l : ℚ)
    (_hneg : r < 0 ∨ c < 0 ∨ l < 0) :
    (save_entry s today r c l).1.records = s.records ++ [⟨today, r, c, l⟩] := rfl

/-- C8 witness: the amended behaviour at the concrete call
`save_entry ⟨[]⟩ 0 (-1) 2 3`. -/
theorem save_entry_accepts_negative_witness :
    ((-1 : ℚ) < 0 ∨ (2 : ℚ) < 0 ∨ (3 : ℚ) < 0) ∧
    (save_entry ⟨[]⟩ 0 (-1) 2 3).1.records = [] ++ [⟨0, -1, 2, 3⟩] :=
  ⟨Or.inl (by norm_num),
    save_entry_accepts_negative ⟨[]⟩ 0 (-1) 2 3 (Or.inl (by norm_num))⟩

/-- Per-record rate `((R + C) / (R + C + L)) * 100` (`app.py` line 141).
A zero denominator makes the pandas division produce `NaN` (under the record
invariant the numerator is then also zero, giving `0/0`), modelled `none`;
no `fillna` is applied at this point in the code. -/
def rateOf (r : WasteRecord) : Option ℚ :=
  if r.recycling + r.compost + r.landfill = 0 then none
  else some ((r.recycling + r.compost) /
    (r.recycling + r.compost + r.landfill) * 100)

/-- Series: `df['Week_Num'] = range(1, len(df) + 1)` paired with the `Rate` column
(`app.py` lines 140–141). -/
def period_rate_series (records : List WasteRecord) : List (ℕ × Option ℚ) :=
  records.enum.map (fun p => (p.1 + 1, rateOf p.2))

/-- C3 counterexample: for the single all-zero record the series entry is
`(1, none)` (pandas `NaN`), not `(1, some 0)` as the claim states — the
zero-denominator guard to `0.0` happens only later, in the forecast's
`fillna(0)` (`app.py` line 146). -/
theorem period_rate_zero_counterexample :
    period_rate_series [⟨0, 0, 0, 0⟩] ≠ [(1, some 0)] := by
  simp [period_rate_series, rateOf]

/-- C3 amended: `period_rate_series` assigns 1-based period indices in
insertion order and per-record rate `100 · (r + c) / (r + c + l)` where the
denominator is nonzero; a record whose denominator is zero (in particular an
all-zero record) gets an undefined rate (`NaN`, modelled `none`), not `0.0`. -/
theorem period_rate_series_spec (rs : List WasteRecord) :
    (period_rate_series rs).map Prod.fst = List.range' 1 rs.length ∧
    (period_rate_series rs).map Prod.snd = rs.map rateOf ∧
    (∀ r : WasteRecord, r.recycling + r.compost + r.landfill = 0 →
      rateOf r = none) ∧
    (∀ r : WasteRecord, r.recycling + r.compost + r.landfill ≠ 0 →
      rateOf r = some ((r.recycling + r.compost) /
        (r.recycling + r.compost + r.landfill) * 100)) := by
  refine ⟨?_, ?_, ?_, ?_⟩
  · unfold period_rate_series
    rw [List.map_map]
    have h1 : (Prod.fst ∘ fun p : ℕ × WasteRecord => (p.1 + 1, rateOf p.2)) =
        (fun p : ℕ × WasteRecord => p.1 + 1) := rfl
    rw [h1]
    have h2 : (fun p : ℕ × WasteRecord => p.1 + 1) =
        ((fun n => n + 1) ∘ Prod.fst) := rfl
    rw [h2, ← List.map_map, List.enum_map_fst, List.range'_eq_map_range]
    simp [Nat.add_comm]
  · unfold period_rate_series
    rw [List.map_map]
    have h1 : (Prod.snd ∘ fun p : ℕ × WasteRecord => (p.1 + 1, rateOf p.2)) =
        (rateOf ∘ Prod.snd) := rfl
    rw [h1, ← List.map_map, List.enum_map_snd]
  · intro r h
    simp [rateOf, h]
  · intro r h
    simp [rateOf, h]

/-- Python `str.strip()`: drop whitespace from both ends. -/
def pyStrip (l : List Char) : List Char :=
  ((l.dropWhile Char.isWhitespace).reverse.dropWhile Char.isWhitespace).reverse

/-- Normalization `item.lower().strip()` (`app.py` line 48), on the character sequence of
the query (ASCII lowering, which covers the table's keys). -/
def normalizeQuery (s : List Char) : List Char :=
  pyStrip (s.map Char.toLower)

/-- Python `key in item`: `needle` occurs as a contiguous substring. -/
def containsSub (needle hay : List Char) : Bool :=
  (List.range (hay.length + 1)).any (fun i => needle.isPrefixOf (hay.drop i))

/-- The static advice table (`app.py` lines 49–58), in definition order —
Python dict iteration order is insertion order. -/
def adviceTable : List (String × String) :=
  [("pizza box", "Compost (if greasy) / Recycle (if clean)"),
   ("plastic bottle", "Recycle (Rinse first)"),
   ("banana peel", "Compost"),
   ("styrofoam", "Landfill (Avoid usage!)"),
   ("aluminum foil", "Recycle (Clean)"),
   ("batteries", "E-Waste Drop-off (Do not bin)"),
   ("coffee cup", "Landfill (Lined with plastic) / Lid is Recyclable"),
   ("glass jar", "Recycle")]

/-- The fallback guidance of `get_waste_advice` (`app.py` line 62). -/
def defaultAdvice : String :=
  "Unknown item. General rule: When in doubt, throw it out (Landfill)."

/-- Lookup: `get_waste_advice` (`app.py` lines 47–62): normalize the query, scan the
table keys in order, return the guidance of the first key contained in the
query, else the default landfill message. -/
def get_waste_advice (item : String) : String :=
  match adviceTable.find?
      (fun kv => containsSub kv.1.data (normalizeQuery item.data)) with
  | some kv => kv.2
  | none => defaultAdvice

/-- C5: `get_waste_advice` lowercases and trims the query, scans the table in
its fixed definition order, returns the first key-substring match's guidance
and otherwise the fixed default; `"  PLASTIC BOTTLE  "` and
`"a used plastic bottle"` both yield the plastic-bottle guidance and
`"tire"` yields the default landfill message. -/
theorem get_waste_advice_spec (q : String) :
    ((∀ kv ∈ adviceTable,
        containsSub kv.1.data (normalizeQuery q.data) = false) →
      get_waste_advice q = defaultAdvice) ∧
    (∀ kv, adviceTable.find?
        (fun e => containsSub e.1.data (normalizeQuery q.data)) = some kv →
      get_waste_advice q = kv.2 ∧ kv ∈ adviceTable ∧
        containsSub kv.1.data (normalizeQuery q.data) = true) ∧
    get_waste_advice ("  PLASTIC BOTTLE  ") = "Recycle (Rinse first)" ∧
    get_waste_advice ("a used plastic bottle") = "Recycle (Rinse first)" ∧
    get_waste_advice ("tire") = defaultAdvice := by
  refine ⟨?_, ?_, by decide, by decide, by decide⟩
  · intro h
    unfold get_waste_advice
    rw [List.find?_eq_none.mpr (fun kv hkv => by simp [h kv hkv])]
  · intro kv hf
    unfold get_waste_advice
    rw [hf]
    refine ⟨rfl, List.mem_of_find?_eq_some hf, ?_⟩
    have hp := List.find?_some hf
    simpa using hp

/-- C10: matching is one-directional — the default message is returned exactly
when no full table key occurs inside the normalized query, so a query that is
merely a fragment of a key (e.g. `"battery"` for key `"batteries"`, or
`"glass"` for key `"glass jar"`) gets the default landfill message, while a
query containing a full key gets that key's guidance. -/
theorem advice_substring_one_directional (q : String) :
    (get_waste_advice q = defaultAdvice ↔
      ∀ kv ∈ adviceTable,
        containsSub kv.1.data (normalizeQuery q.data) = false) ∧
    get_waste_advice ("battery") = defaultAdvice ∧
    get_waste_advice ("glass") = defaultAdvice ∧
    get_waste_advice ("glass jar please") = "Recycle" := by
  have hvals : ∀ kv ∈ adviceTable, ¬ kv.2 = defaultAdvice := by decide
  refine ⟨?_, by decide, by decide, by decide⟩
  constructor
  · intro hdef
    cases h : adviceTable.find?
        (fun e => containsSub e.1.data (normalizeQuery q.data)) with
    | none =>
        intro kv hkv
        have := List.find?_eq_none.mp h kv hkv
        simpa using this
    | some kv =>
        exfalso
        unfold get_waste_advice at hdef
        rw [h] at hdef
        exact hvals kv (List.mem_of_find?_eq_some h) hdef
  · intro hall
    unfold get_waste_advice
    rw [List.find?_eq_none.mpr (fun kv hkv => by simp [hall kv hkv])]

/-- The backing CSV file at the raw tokenized level: a header row of column
names and data rows of cell strings. -/
structure CsvFile where
  header : List String
  rows : List (List String)
  deriving DecidableEq, Repr

/-- The failure of the modelled CSV reader. -/
inductive ReadError where
  | parserError
  deriving DecidableEq, Repr

/-- Modelled `pd.read_csv` (`app.py` line 33): the pandas tokenizer raises
`ParserError` exactly when a data row carries more fields than the header.
It performs no schema validation — whatever column names and cell strings are
present are returned as the frame (a short row is padded with `NaN`, a
non-numeric cell stays a string). -/
def read_csv (f : CsvFile) : Except ReadError CsvFile :=
  if f.rows.any (fun row => f.header.length < row.length) then
    .error .parserError
  else .ok f

/-- The synthetic 5-record seed frame (`app.py` lines 26–31); dates are day
numbers `today - 7*i`. -/
def seedFile (today : ℕ) : CsvFile :=
  { header := ["Date", "Recycling", "Compost", "Landfill"]
    rows := [[toString today, "45", "20", "100"],
             [toString (today - 7), "48", "22", "95"],
             [toString (today - 14), "50", "25", "90"],
             [toString (today - 21), "52", "28", "85"],
             [toString (today - 28), "40", "15", "110"]] }

/-- Loading: `load_data` (`app.py` lines 24–33): when the backing file is absent, write
and return the synthetic seed; otherwise `pd.read_csv` the existing file. -/
def load_data (today : ℕ) : Option CsvFile → Except ReadError CsvFile
  | none => .ok (seedFile today)
  | some f => read_csv f

/-- An existing-but-malformed backing file: the `Compost` column is missing,
yet every row tokenizes (3 fields against a 3-name header). -/
def malformedFile : CsvFile :=
  { header := ["Date", "Recycling", "Landfill"]
    rows := [["7", "5", "3"]] }

/-- C9 counterexample: on a backing file missing the expected `Compost`
column, `load_data` does not fail — `pd.read_csv` has no notion of expected
columns, so the malformed frame is returned as-is and the failure would only
surface later, at column access in a consumer. -/
theorem load_data_malformed_counterexample :
    load_data 0 (some malformedFile) = Except.ok malformedFile := rfl

/-- C9 amended: for every existing backing file whose rows each carry at most
as many fields as the header, `load_data` returns the file's own parsed
contents unchanged — including files missing expected columns or holding
non-numeric quantity cells; it never substitutes a default or empty record
set for an existing file, and a read error occurs only for a structurally
untokenizable file. -/
theorem load_data_no_schema_check (today : ℕ) (f : CsvFile)
    (hw : ∀ row ∈ f.rows, row.length ≤ f.header.length) :
    load_data today (some f) = Except.ok f := by
  unfold load_data read_csv
  have hnone : f.rows.any (fun row => f.header.length < row.length) = false := by
    rw [List.any_eq_false]
    intro row hrow
    simpa using hw row hrow
  simp [hnone]

/-- C9 witness: the amended behaviour at the concrete malformed file. -/
theorem load_data_no_schema_check_witness :
    (∀ row ∈ malformedFile.rows,
      row.length ≤ malformedFile.header.length) ∧
    load_data 0 (some malformedFile) = Except.ok malformedFile :=
  ⟨by decide, load_data_no_schema_check 0 malformedFile (by decide)⟩

/-- The failure of the forecast: models the `else: st.error("Need more data
to predict.")` branch (`app.py` line 159), the only failure of the module and
distinct from every other error of the program. -/
inductive ForecastError where
  | insufficientData
  deriving DecidableEq, Repr

/-- Guard `df['Rate'].fillna(0)` (`app.py` line 146): a `NaN` rate becomes `0`. -/
def fillna0 (o : Option ℚ) : ℚ := o.getD 0

/-- The `Week_Num` column `range(1, n + 1)` as rationals. -/
def weekXs (n : ℕ) : List ℚ :=
  List.map (fun i : ℕ => ((i : ℚ) + 1)) (List.range n)

/-- The fitted data: week numbers `1..n` paired with the `fillna(0)` rates —
`X = df[['Week_Num']]`, `y = df['Rate'].fillna(0)` (`app.py` lines 145–146). -/
def fitData (rates : List (Option ℚ)) : List (ℚ × ℚ) :=
  (weekXs rates.length).zip (rates.map fillna0)

def sumFst (l : List (ℚ × ℚ)) : ℚ := (l.map Prod.fst).sum

def sumSnd (l : List (ℚ × ℚ)) : ℚ := (l.map Prod.snd).sum

def sumFstSq (l : List (ℚ × ℚ)) : ℚ := (l.map (fun p => p.1 ^ 2)).sum

def sumProd (l : List (ℚ × ℚ)) : ℚ := (l.map (fun p => p.1 * p.2)).sum

/-- The slope `sklearn.linear_model.LinearRegression` fits (`app.py` line
147): the ordinary least-squares closed form. -/
def olsSlope (l : List (ℚ × ℚ)) : ℚ :=
  ((l.length : ℚ) * sumProd l - sumFst l * sumSnd l) /
    ((l.length : ℚ) * sumFstSq l - sumFst l ^ 2)

/-- The intercept of the fitted line. -/
def olsIntercept (l : List (ℚ × ℚ)) : ℚ :=
  (sumSnd l - olsSlope l * sumFst l) / (l.length : ℚ)

/-- The AI Analyst forecast (`app.py` lines 143–159), generalized over the
projection horizon: the page itself uses
`future_weeks = range(len(df)+1, len(df)+5)`, i.e. horizon 4. Requires more
than one data point (`if len(df) > 1`), else the distinguishable
no-prediction failure; otherwise evaluates the fitted line at the horizon
future week numbers, with no clamping of the predicted value. -/
def fit_and_project (rates : List (Option ℚ)) (horizon : ℕ) :
    Except ForecastError (List (ℕ × ℚ)) :=
  if rates.length ≤ 1 then .error .insufficientData
  else
    .ok ((List.range horizon).map (fun j =>
      (rates.length + 1 + j,
        olsSlope (fitData rates) * ((rates.length : ℚ) + 1 + (j : ℚ)) +
          olsIntercept (fitData rates))))

/-- The sum of squared errors of the line `y = a·x + b` on the data. -/
def SSE (l : List (ℚ × ℚ)) (a b : ℚ) : ℚ :=
  (l.map (fun p => (p.2 - (a * p.1 + b)) ^ 2)).sum

/-- Predicate: `(a, b)` minimizes the sum of squared errors over all lines. -/
def IsBestFit (l : List (ℚ × ℚ)) (a b : ℚ) : Prop :=
  ∀ p q : ℚ, SSE l a b ≤ SSE l p q

/-- C7: the forecast fails, with its distinguishable no-data failure, exactly
on series of fewer than 2 points; with 2 or more points it produces a
prediction, and `insufficientData` is the only failure it can produce. -/
theorem fit_and_project_guard (rates : List (Option ℚ)) (horizon : ℕ) :
    (rates.length < 2 →
      fit_and_project rates horizon = .error .insufficientData) ∧
    (2 ≤ rates.length →
      ∃ out, fit_and_project rates horizon = .ok out) ∧
    (∀ e, fit_and_project rates horizon = .error e →
      e = .insufficientData ∧ rates.length < 2) := by
  unfold fit_and_project
  by_cases h : rates.length ≤ 1
  · rw [if_pos h]
    exact ⟨fun _ => rfl, fun h2 => absurd h (by omega), fun e he => by
      cases he
      exact ⟨rfl, by omega⟩⟩
  · rw [if_neg h]
    exact ⟨fun hlt => absurd hlt (by omega), fun _ => ⟨_, rfl⟩,
      fun e he => by cases he⟩

def sumRes (l : List (ℚ × ℚ)) (a b : ℚ) : ℚ :=
  (l.map (fun p => p.2 - (a * p.1 + b))).sum

def sumXRes (l : List (ℚ × ℚ)) (a b : ℚ) : ℚ :=
  (l.map (fun p => p.1 * (p.2 - (a * p.1 + b)))).sum

lemma sumRes_eq (l : List (ℚ × ℚ)) (a b : ℚ) :
    sumRes l a b = sumSnd l - a * sumFst l - (l.length : ℚ) * b := by
  induction l with
  | nil => simp [sumRes, sumSnd, sumFst]
  | cons x xs ih =>
      simp only [sumRes, sumSnd, sumFst, List.map_cons, List.sum_cons,
        List.length_cons] at ih ⊢
      push_cast
      linarith [ih]

lemma sumXRes_eq (l : List (ℚ × ℚ)) (a b : ℚ) :
    sumXRes l a b = sumProd l - a * sumFstSq l - b * sumFst l := by
  induction l with
  | nil => simp [sumXRes, sumProd, sumFstSq, sumFst]
  | cons x xs ih =>
      simp only [sumXRes, sumProd, sumFstSq, sumFst, List.map_cons,
        List.sum_cons] at ih ⊢
      nlinarith [ih]

lemma SSE_decomp (l : List (ℚ × ℚ)) (a b p q : ℚ) :
    SSE l p q = SSE l a b + 2 * (a - p) * sumXRes l a b +
      2 * (b - q) * sumRes l a b +
      (l.map (fun r => ((a - p) * r.1 + (b - q)) ^ 2)).sum := by
  induction l with
  | nil => simp [SSE, sumXRes, sumRes]
  | cons x xs ih =>
      simp only [SSE, sumXRes, sumRes, List.map_cons, List.sum_cons] at ih ⊢
      linear_combination ih

lemma normal_eq_res (l : List (ℚ × ℚ)) (hn : (l.length : ℚ) ≠ 0) :
    sumRes l (olsSlope l) (olsIntercept l) = 0 := by
  rw [sumRes_eq, olsIntercept]
  field_simp

lemma normal_eq_xres (l : List (ℚ × ℚ)) (hn : (l.length : ℚ) ≠ 0)
    (hd : (l.length : ℚ) * sumFstSq l - sumFst l ^ 2 ≠ 0) :
    sumXRes l (olsSlope l) (olsIntercept l) = 0 := by
  rw [sumXRes_eq, olsIntercept, olsSlope]
  field_simp
  ring

lemma ols_minimizes (l : List (ℚ × ℚ)) (hn : (l.length : ℚ) ≠ 0)
    (hd : (l.length : ℚ) * sumFstSq l - sumFst l ^ 2 ≠ 0) :
    IsBestFit l (olsSlope l) (olsIntercept l) := by
  intro p q
  have hde := SSE_decomp l (olsSlope l) (olsIntercept l) p q
  rw [normal_eq_res l hn, normal_eq_xres l hn hd] at hde
  have hsq : 0 ≤ (l.map (fun r =>
      ((olsSlope l - p) * r.1 + (olsIntercept l - q)) ^ 2)).sum := by
    apply List.sum_nonneg
    intro x hx
    obtain ⟨r, _, rfl⟩ := List.mem_map.mp hx
    positivity
  linarith [hde, hsq]

lemma weekXs_length (n : ℕ) : (weekXs n).length = n := by
  rw [weekXs, List.length_map, List.length_range]

lemma fitData_length (rates : List (Option ℚ)) :
    (fitData rates).length = rates.length := by
  rw [fitData, List.length_zip, weekXs_length, List.length_map, Nat.min_self]

lemma fitData_map_fst (rates : List (Option ℚ)) :
    (fitData rates).map Prod.fst = weekXs rates.length := by
  unfold fitData
  rw [List.map_fst_zip]
  rw [weekXs_length, List.length_map]

lemma sum_weekXs (n : ℕ) :
    (weekXs n).sum = (n : ℚ) * (n + 1) / 2 := by
  induction n with
  | zero => simp [weekXs]
  | succ m ih =>
      have hstep : (weekXs (m + 1)).sum = (weekXs m).sum + ((m : ℚ) + 1) := by
        simp [weekXs, List.range_succ]
      rw [hstep, ih]
      push_cast
      ring

lemma sumsq_weekXs (n : ℕ) :
    ((weekXs n).map (fun x => x ^ 2)).sum =
      (n : ℚ) * (n + 1) * (2 * n + 1) / 6 := by
  induction n with
  | zero => simp [weekXs]
  | succ m ih =>
      have hstep : ((weekXs (m + 1)).map (fun x => x ^ 2)).sum =
          ((weekXs m).map (fun x => x ^ 2)).sum + ((m : ℚ) + 1) ^ 2 := by
        simp [weekXs, List.range_succ]
      rw [hstep, ih]
      push_cast
      ring

lemma sumFst_fitData (rates : List (Option ℚ)) :
    sumFst (fitData rates) =
      (rates.length : ℚ) * (rates.length + 1) / 2 := by
  rw [sumFst, fitData_map_fst, sum_weekXs]

lemma sumFstSq_fitData (rates : List (Option ℚ)) :
    sumFstSq (fitData rates) =
      (rates.length : ℚ) * (rates.length + 1) * (2 * rates.length + 1) / 6 := by
  have hmm : (fitData rates).map (fun p => p.1 ^ 2) =
      ((fitData rates).map Prod.fst).map (fun x => x ^ 2) := by
    rw [List.map_map]
    rfl
  rw [sumFstSq, hmm, fitData_map_fst, sumsq_weekXs]

lemma fitData_denom (rates : List (Option ℚ)) (h2 : 2 ≤ rates.length) :
    ((fitData rates).length : ℚ) * sumFstSq (fitData rates) -
      sumFst (fitData rates) ^ 2 ≠ 0 := by
  rw [fitData_length, sumFstSq_fitData, sumFst_fitData]
  have hn : (2 : ℚ) ≤ (rates.length : ℚ) := by exact_mod_cast h2
  have hval : (rates.length : ℚ) *
      ((rates.length : ℚ) * (rates.length + 1) * (2 * rates.length + 1) / 6) -
      ((rates.length : ℚ) * (rates.length + 1) / 2) ^ 2 =
      (rates.length : ℚ) ^ 2 * ((rates.length : ℚ) ^ 2 - 1) / 12 := by
    ring
  rw [hval]
  have hpos : 0 < (rates.length : ℚ) ^ 2 * ((rates.length : ℚ) ^ 2 - 1) / 12 := by
    nlinarith
  exact ne_of_gt hpos

lemma fitData_len_ne (rates : List (Option ℚ)) (h2 : 2 ≤ rates.length) :
    ((fitData rates).length : ℚ) ≠ 0 := by
  rw [fitData_length]
  have : (0 : ℚ) < (rates.length : ℚ) := by
    exact_mod_cast Nat.lt_of_lt_of_le (by norm_num) h2
  exact ne_of_gt this

/-- C2: with at least 2 points and horizon `h ≥ 1`, the forecast is exactly
the pairs `(N+1, a·(N+1)+b), …, (N+h, a·(N+h)+b)` for `N` the last (maximal)
week index — the week indices are `1..N`, so `N = rates.length` — where
`(a, b)` is the least-squares line on the `(week, fillna(0) rate)` pairs:
it minimizes the sum of squared errors over all lines. Predictions pass
through unclamped: on the series `[0, 200]` the projected period-3 rate is
`400`, far outside `[0, 100]`. -/
theorem fit_and_project_ols (rates : List (Option ℚ)) (horizon : ℕ)
    (h2 : 2 ≤ rates.length) (_h1 : 1 ≤ horizon) :
    fit_and_project rates horizon =
      .ok ((List.range horizon).map (fun j =>
        (rates.length + 1 + j,
          olsSlope (fitData rates) * ((rates.length : ℚ) + 1 + (j : ℚ)) +
            olsIntercept (fitData rates)))) ∧
    IsBestFit (fitData rates)
      (olsSlope (fitData rates)) (olsIntercept (fitData rates)) ∧
    fit_and_project [some 0, some 200] 1 = .ok [(3, 400)] := by
  refine ⟨?_, ?_, ?_⟩
  · unfold fit_and_project
    rw [if_neg (by omega)]
  · exact ols_minimizes _ (fitData_len_ne rates h2) (fitData_denom rates h2)
  · norm_num [fit_and_project, fitData, weekXs, fillna0, olsSlope, olsIntercept,
      sumFst, sumSnd, sumFstSq, sumProd, List.range_succ]

/-- The spec's example series `[(1,50),(2,60),(3,70)]`. -/
def exSeries : List (Option ℚ) := [some 50, some 60, some 70]

/-- C2 witness: on the example series the fit is the line `10·x + 40`, it is
the least-squares minimizer, and the horizon-1 projection is `(4, 80)`. -/
theorem fit_and_project_ols_witness :
    2 ≤ exSeries.length ∧ (1 : ℕ) ≤ 1 ∧
    fit_and_project exSeries 1 = .ok [(4, 80)] ∧
    IsBestFit (fitData exSeries) 10 40 := by
  obtain ⟨heq, hbest, _⟩ :=
    fit_and_project_ols exSeries 1 (by norm_num [exSeries]) le_rfl
  have hs : olsSlope (fitData exSeries) = 10 := by
    norm_num [olsSlope, fitData, weekXs, fillna0, sumFst, sumSnd, sumFstSq,
      sumProd, exSeries, List.range_succ]
  have hb : olsIntercept (fitData exSeries) = 40 := by
    norm_num [olsIntercept, olsSlope, fitData, weekXs, fillna0, sumFst, sumSnd,
      sumFstSq, sumProd, exSeries, List.range_succ]
  refine ⟨by norm_num [exSeries], le_rfl, ?_, ?_⟩
  · rw [heq, hs, hb]
    norm_num [exSeries, List.range_succ]
  · rw [← hs, ← hb]
    exact hbest

end EcoTrack
